import Mathlib

/-!
Verification development for the PMS (Taiwan stock portfolio management)
backend.  The definitions below are shallow embeddings of the Go services
and the PostgreSQL schema:

* ledger: `backend/internal/services/ledger_service.go` (`CreateEvent`,
  `RefreshPositions`) together with the schema objects of the Phase-1 SQL
  file (`ledger_events` constraints, `tax_lots`, `realized_pnl`, the
  `positions_current` materialized view, `refresh_positions()`).

Monetary values use `Rat`, the exact model of arbitrary-precision decimals
(`shopspring/decimal` in Go, `DECIMAL` in PostgreSQL).  UUIDs and
timestamps are opaque to every property proved here and are modelled as
`Nat` tokens.  Database calls that can fail for environmental reasons
(network, connection loss) are modelled by explicit boolean oracles, so
the success and failure control paths of the Go code are both visible.
-/

namespace PMS

/-- Event types accepted by the `valid_event_type` CHECK of `ledger_events`
and by the Go `EventType` constants. -/
inductive EventType
  | BUY
  | SELL
  | DIVIDEND
  | SPLIT
  | RIGHTS
  | CORRECTION
deriving DecidableEq, Repr

/-- The Go `CreateLedgerEventRequest` (models package): the caller-supplied
fields of a new ledger event. -/
structure CreateLedgerEventRequest where
  portfolioId : Nat
  eventType : EventType
  symbol : String
  quantity : Rat
  price : Rat
  fee : Rat
  tax : Rat
  occurredAt : Nat
deriving DecidableEq, Repr

/-- A row of `ledger_events`.  `payloadRatio` models the only payload field
the schema ever reads, `payload->>'ratio'` in the `positions_current`
view; `none` models SQL NULL (rows created by `CreateEvent` insert no
payload). -/
structure LedgerEvent where
  eventId : Nat
  userId : Nat
  portfolioId : Nat
  eventType : EventType
  symbol : String
  quantity : Rat
  price : Rat
  fee : Rat
  tax : Rat
  totalAmount : Rat
  occurredAt : Nat
  recordedAt : Nat
  payloadRatio : Option Rat
deriving DecidableEq, Repr

/-- A row of `tax_lots` (FIFO cost-basis table of the schema). -/
structure TaxLot where
  id : Nat
  portfolioId : Nat
  symbol : String
  purchaseEventId : Nat
  purchaseDate : Nat
  purchasePrice : Rat
  originalQuantity : Rat
  remainingQuantity : Rat
  isClosed : Bool
deriving DecidableEq, Repr

/-- A row of `realized_pnl`. -/
structure RealizedPnLRow where
  id : Nat
  portfolioId : Nat
  symbol : String
  buyEventId : Nat
  sellEventId : Nat
  quantity : Rat
  buyPrice : Rat
  sellPrice : Rat
  realizedPnl : Rat
deriving DecidableEq, Repr

/-- A row of the `positions_current` materialized view. -/
structure PositionRow where
  portfolioId : Nat
  symbol : String
  totalQuantity : Rat
  totalCost : Rat
  avgCostPerShare : Rat
deriving DecidableEq, Repr

/-- The ledger-side database state: the event log, the two FIFO tables and
the materialized contents of `positions_current`. -/
structure DBState where
  ledger_events : List LedgerEvent
  tax_lots : List TaxLot
  realized_pnl : List RealizedPnLRow
  positions_current : List PositionRow
deriving DecidableEq, Repr

/-- The `valid_symbol` CHECK of `ledger_events`: the regular expression
`[0-9]{4}\.(TW|TWO)` anchored on both sides. -/
def symbolValid (s : String) : Bool :=
  match s.toList with
  | [a, b, c, d, '.', 'T', 'W'] => a.isDigit && b.isDigit && c.isDigit && d.isDigit
  | [a, b, c, d, '.', 'T', 'W', 'O'] => a.isDigit && b.isDigit && c.isDigit && d.isDigit
  | _ => false

/-- The row-level CHECK constraints of `ledger_events` that a non-NULL row
built by `CreateEvent` must satisfy: `valid_symbol`, `positive_quantity`
(`quantity > 0`) and `positive_price` (`price >= 0`).  The database
accepts the insert exactly when these hold. -/
def rowConstraintsOk (e : LedgerEvent) : Bool :=
  symbolValid e.symbol && decide (0 < e.quantity) && decide (0 ≤ e.price)

/-- The event value built at the top of `CreateEvent`
(ledger_service.go lines 24-51): `total_amount` starts as
`quantity * price`, fees and taxes are added for BUY and subtracted for
SELL.  `eid` models `uuid.New()` and `now` models `time.Now()`. -/
def mkEvent (eid now userId : Nat) (req : CreateLedgerEventRequest) : LedgerEvent :=
  let base := req.quantity * req.price
  let totalAmount :=
    if req.eventType = .BUY then base + req.fee + req.tax
    else if req.eventType = .SELL then base - req.fee - req.tax
    else base
  { eventId := eid
    userId := userId
    portfolioId := req.portfolioId
    eventType := req.eventType
    symbol := req.symbol
    quantity := req.quantity
    price := req.price
    fee := req.fee
    tax := req.tax
    totalAmount := totalAmount
    occurredAt := req.occurredAt
    recordedAt := now
    payloadRatio := none }

/-- Whether an event type is in the `WHERE event_type IN
('BUY','SELL','SPLIT')` filter of the `positions_current` view. -/
def inView (t : EventType) : Bool :=
  t = .BUY || t = .SELL || t = .SPLIT

/-- Per-row quantity contribution of the view's first CASE expression.
For SPLIT with a NULL payload the SQL product is NULL, which `SUM`
skips; contributing `0` is observationally the same here because the
cost column of such a group is also what decides row presence. -/
def qtyCase (e : LedgerEvent) : Rat :=
  match e.eventType with
  | .BUY => e.quantity
  | .SELL => -e.quantity
  | .SPLIT =>
      match e.payloadRatio with
      | some r => e.quantity * r
      | none => 0
  | _ => 0

/-- Per-row cost contribution of the view's second CASE expression. -/
def costCase (e : LedgerEvent) : Rat :=
  match e.eventType with
  | .BUY => e.totalAmount
  | .SELL => -e.totalAmount
  | _ => 0

/-- The event group of one (`portfolio_id`, `symbol`) key inside the
view's `GROUP BY`. -/
def groupEvents (evs : List LedgerEvent) (pid : Nat) (sym : String) :
    List LedgerEvent :=
  evs.filter fun e => e.portfolioId = pid && e.symbol = sym && inView e.eventType

/-- The `positions_current` row for one (`portfolio_id`, `symbol`) key:
present with `avg_cost_per_share = total_cost / total_quantity` exactly
when the aggregated `total_quantity` is positive (`WHERE total_quantity
> 0`), absent otherwise. -/
def positionsFor (evs : List LedgerEvent) (pid : Nat) (sym : String) :
    Option PositionRow :=
  let g := groupEvents evs pid sym
  let tq := (g.map qtyCase).sum
  let tc := (g.map costCase).sum
  if 0 < tq then
    some { portfolioId := pid, symbol := sym, totalQuantity := tq,
           totalCost := tc, avgCostPerShare := tc / tq }
  else none

/-- The grouping keys appearing in the view. -/
def viewKeys (evs : List LedgerEvent) : List (Nat × String) :=
  ((evs.filter fun e => inView e.eventType).map fun e =>
    (e.portfolioId, e.symbol)).dedup

/-- The full contents of `positions_current` after `REFRESH MATERIALIZED
VIEW` (the body of the SQL function `refresh_positions()`). -/
def refreshPositionsView (evs : List LedgerEvent) : List PositionRow :=
  (viewKeys evs).filterMap fun k => positionsFor evs k.1 k.2

/-- The Go `CreateEvent` (ledger_service.go lines 24-80).  Control flow of
the source, in order: build the event value, `INSERT` it into
`ledger_events` (an autocommitted statement; fails when the database
errors or a CHECK constraint is violated, and then the function returns
the error with nothing persisted), then call `RefreshPositions` as a
second, separate statement (when it fails the function returns the error,
but the insert has already been committed).  `dbInsertOk` and
`dbRefreshOk` are the environmental-fault oracles of the two statements;
`none` as result models the Go error return. -/
def CreateEvent (dbInsertOk dbRefreshOk : Bool) (st : DBState)
    (eid now userId : Nat) (req : CreateLedgerEventRequest) :
    DBState × Option LedgerEvent :=
  let ev := mkEvent eid now userId req
  if dbInsertOk && rowConstraintsOk ev then
    let st1 := { st with ledger_events := st.ledger_events ++ [ev] }
    if dbRefreshOk then
      ({ st1 with
          positions_current := refreshPositionsView st1.ledger_events },
        some ev)
    else (st1, none)
  else (st, none)

/-- Sum of `remaining_quantity` over the open tax lots of one
(`portfolio_id`, `symbol`) key. -/
def openLotSum (lots : List TaxLot) (pid : Nat) (sym : String) : Rat :=
  ((lots.filter fun l =>
      l.portfolioId = pid && l.symbol = sym && !l.isClosed).map
    TaxLot.remainingQuantity).sum

/-- Spec-side sum: BUY quantities of a group. -/
def sumBuyQty (g : List LedgerEvent) : Rat :=
  ((g.filter fun e => e.eventType = .BUY).map LedgerEvent.quantity).sum

/-- Spec-side sum: SELL quantities of a group. -/
def sumSellQty (g : List LedgerEvent) : Rat :=
  ((g.filter fun e => e.eventType = .SELL).map LedgerEvent.quantity).sum

/-- Spec-side sum: quantity times payload ratio over the SPLIT events of a
group. -/
def sumSplitQty (g : List LedgerEvent) : Rat :=
  ((g.filter fun e => e.eventType = .SPLIT).map fun e =>
    e.quantity * e.payloadRatio.getD 0).sum

/-- Spec-side sum: BUY total amounts of a group. -/
def sumBuyCost (g : List LedgerEvent) : Rat :=
  ((g.filter fun e => e.eventType = .BUY).map LedgerEvent.totalAmount).sum

/-- Spec-side sum: SELL total amounts of a group. -/
def sumSellCost (g : List LedgerEvent) : Rat :=
  ((g.filter fun e => e.eventType = .SELL).map LedgerEvent.totalAmount).sum

lemma qtyCase_sum (g : List LedgerEvent) :
    ((g.map qtyCase).sum : Rat) =
      sumBuyQty g - sumSellQty g +
        ((g.filter fun e => e.eventType = .SPLIT).map qtyCase).sum := by
  induction g with
  | nil => simp [sumBuyQty, sumSellQty]
  | cons e g ih =>
      simp only [List.map_cons, List.sum_cons, sumBuyQty, sumSellQty,
        List.filter_cons] at ih ⊢
      cases h : e.eventType <;>
        simp [qtyCase, h, ih, sumBuyQty, sumSellQty] <;> ring

lemma costCase_sum (g : List LedgerEvent) :
    ((g.map costCase).sum : Rat) = sumBuyCost g - sumSellCost g := by
  induction g with
  | nil => simp [sumBuyCost, sumSellCost]
  | cons e g ih =>
      simp only [List.map_cons, List.sum_cons, sumBuyCost, sumSellCost,
        List.filter_cons] at ih ⊢
      cases h : e.eventType <;>
        simp [costCase, h, ih, sumBuyCost, sumSellCost] <;> ring

lemma splitQty_sum (g : List LedgerEvent)
    (h : ∀ e ∈ g, e.eventType = .SPLIT → e.payloadRatio.isSome) :
    (((g.filter fun e => e.eventType = .SPLIT).map qtyCase).sum : Rat) =
      sumSplitQty g := by
  induction g with
  | nil => simp [sumSplitQty]
  | cons e g ih =>
      have he := h e (by simp)
      have hg : ∀ x ∈ g, x.eventType = .SPLIT → x.payloadRatio.isSome :=
        fun x hx => h x (by simp [hx])
      simp only [sumSplitQty, List.filter_cons] at ih ⊢
      by_cases hs : e.eventType = .SPLIT
      · obtain ⟨r, hr⟩ := Option.isSome_iff_exists.mp (he hs)
        simp [hs, qtyCase, hr, ih hg, sumSplitQty]
      · simp [hs, ih hg, sumSplitQty]

/-- Empty ledger database (mirrors a fresh portfolio with no lots). -/
def emptyDB : DBState :=
  { ledger_events := [], tax_lots := [], realized_pnl := [],
    positions_current := [] }

/-- A SELL request for 100 shares of 2330.TW against a portfolio whose tax
lots are empty (open-lot sum 0). -/
def oversellReq : CreateLedgerEventRequest :=
  { portfolioId := 11, eventType := .SELL, symbol := "2330.TW",
    quantity := 100, price := 600, fee := 0, tax := 0, occurredAt := 5 }

/-- C1, counterexample.  With no open lots for 2330.TW, a SELL of 100
satisfies every `ledger_events` CHECK constraint, so `CreateEvent`
succeeds (returns the event, no ValidationError) and the state changes:
the claim's required rejection does not happen. -/
theorem createEvent_oversell_accepted_cex :
    openLotSum emptyDB.tax_lots 11 "2330.TW" < (100 : Rat) ∧
    rowConstraintsOk (mkEvent 1 2 7 oversellReq) = true ∧
    (CreateEvent true true emptyDB 1 2 7 oversellReq).2.isSome = true ∧
    (CreateEvent true true emptyDB 1 2 7 oversellReq).1.ledger_events ≠
      emptyDB.ledger_events := by
  decide

/-- C1, amended.  `CreateEvent` performs no open-lot validation: a SELL
whose quantity strictly exceeds the open-lot sum for its key, as long as
its row satisfies the table CHECK constraints, is accepted — the event is
appended and the positions view refreshed — and the tax lots are left
untouched. -/
theorem createEvent_oversell_accepted (st : DBState)
    (eid now uid : Nat) (req : CreateLedgerEventRequest)
    (hsell : req.eventType = .SELL)
    (hover : openLotSum st.tax_lots req.portfolioId req.symbol <
      req.quantity)
    (hok : rowConstraintsOk (mkEvent eid now uid req) = true) :
    CreateEvent true true st eid now uid req =
      ({ st with
          ledger_events := st.ledger_events ++ [mkEvent eid now uid req],
          positions_current :=
            refreshPositionsView
              (st.ledger_events ++ [mkEvent eid now uid req]) },
        some (mkEvent eid now uid req)) ∧
    (CreateEvent true true st eid now uid req).1.tax_lots = st.tax_lots := by
  constructor
  · simp [CreateEvent, hok]
  · simp [CreateEvent, hok]

/-- C1, witness for the amended theorem at the concrete over-selling
input. -/
theorem createEvent_oversell_accepted_witness :
    CreateEvent true true emptyDB 1 2 7 oversellReq =
      ({ emptyDB with
          ledger_events :=
            emptyDB.ledger_events ++ [mkEvent 1 2 7 oversellReq],
          positions_current :=
            refreshPositionsView
              (emptyDB.ledger_events ++ [mkEvent 1 2 7 oversellReq]) },
        some (mkEvent 1 2 7 oversellReq)) ∧
    (CreateEvent true true emptyDB 1 2 7 oversellReq).1.tax_lots =
      emptyDB.tax_lots :=
  createEvent_oversell_accepted emptyDB 1 2 7 oversellReq (by decide)
    (by decide) (by decide)

/-- A well-formed BUY request used by several concrete evaluations. -/
def buyReq : CreateLedgerEventRequest :=
  { portfolioId := 11, eventType := .BUY, symbol := "2330.TW",
    quantity := 1000, price := 580, fee := 826.5, tax := 0,
    occurredAt := 3 }

/-- C2, counterexample.  Run `CreateEvent` with the positions refresh
failing after a successful insert: the call reports an error (`none`),
yet the new event row is persisted — the insert and the refresh are two
separate autocommitted statements, not one transaction. -/
theorem createEvent_not_atomic_cex :
    (CreateEvent true false emptyDB 1 2 7 buyReq).2 = none ∧
    (CreateEvent true false emptyDB 1 2 7 buyReq).1.ledger_events.length =
      1 ∧
    emptyDB.ledger_events.length = 0 := by
  decide

/-- C2, amended.  `CreateEvent` is not atomic: the event insert and the
positions refresh are separate statements.  Whenever the refresh fails
after a successful insert, the function returns an error but the new
event row remains persisted and the positions view is left stale (tax
lots and realized P&L untouched as always). -/
theorem createEvent_not_atomic (st : DBState)
    (eid now uid : Nat) (req : CreateLedgerEventRequest)
    (hok : rowConstraintsOk (mkEvent eid now uid req) = true) :
    (CreateEvent true false st eid now uid req).2 = none ∧
    (CreateEvent true false st eid now uid req).1.ledger_events =
      st.ledger_events ++ [mkEvent eid now uid req] ∧
    (CreateEvent true false st eid now uid req).1.positions_current =
      st.positions_current ∧
    (CreateEvent true false st eid now uid req).1.tax_lots = st.tax_lots ∧
    (CreateEvent true false st eid now uid req).1.realized_pnl =
      st.realized_pnl := by
  simp [CreateEvent, hok]

/-- C2, witness for the amended theorem at a concrete input. -/
theorem createEvent_not_atomic_witness :
    (CreateEvent true false emptyDB 1 2 7 buyReq).2 = none ∧
    (CreateEvent true false emptyDB 1 2 7 buyReq).1.ledger_events =
      emptyDB.ledger_events ++ [mkEvent 1 2 7 buyReq] ∧
    (CreateEvent true false emptyDB 1 2 7 buyReq).1.positions_current =
      emptyDB.positions_current ∧
    (CreateEvent true false emptyDB 1 2 7 buyReq).1.tax_lots =
      emptyDB.tax_lots ∧
    (CreateEvent true false emptyDB 1 2 7 buyReq).1.realized_pnl =
      emptyDB.realized_pnl :=
  createEvent_not_atomic emptyDB 1 2 7 buyReq (by decide)

/-- C3.  Frame of `CreateEvent`: for every input and every oracle outcome
the tax-lot and realized-P&L tables are unchanged (so no RealizedPnL row
is ever emitted, SELL included); and on the success path the call appends
exactly one row to `ledger_events` and recomputes the
`positions_current` view over the extended log. -/
theorem createEvent_frame (dbInsertOk dbRefreshOk : Bool) (st : DBState)
    (eid now uid : Nat) (req : CreateLedgerEventRequest) :
    ((CreateEvent dbInsertOk dbRefreshOk st eid now uid req).1.tax_lots =
        st.tax_lots ∧
      (CreateEvent dbInsertOk dbRefreshOk st eid now uid
          req).1.realized_pnl = st.realized_pnl) ∧
    (rowConstraintsOk (mkEvent eid now uid req) = true →
      (CreateEvent true true st eid now uid req).1.ledger_events =
          st.ledger_events ++ [mkEvent eid now uid req] ∧
        (CreateEvent true true st eid now uid req).1.positions_current =
          refreshPositionsView
            (st.ledger_events ++ [mkEvent eid now uid req])) := by
  refine ⟨?_, fun hok => ?_⟩
  · unfold CreateEvent
    cases dbInsertOk <;> cases dbRefreshOk <;>
      cases h : rowConstraintsOk (mkEvent eid now uid req) <;> simp [h]
  · simp [CreateEvent, hok]

/-- C3, witness at a concrete accepted BUY. -/
theorem createEvent_frame_witness :
    ((CreateEvent true true emptyDB 1 2 7 buyReq).1.tax_lots =
        emptyDB.tax_lots ∧
      (CreateEvent true true emptyDB 1 2 7 buyReq).1.realized_pnl =
        emptyDB.realized_pnl) ∧
    ((CreateEvent true true emptyDB 1 2 7 buyReq).1.ledger_events =
        emptyDB.ledger_events ++ [mkEvent 1 2 7 buyReq] ∧
      (CreateEvent true true emptyDB 1 2 7 buyReq).1.positions_current =
        refreshPositionsView
          (emptyDB.ledger_events ++ [mkEvent 1 2 7 buyReq])) :=
  ⟨(createEvent_frame true true emptyDB 1 2 7 buyReq).1,
    (createEvent_frame true true emptyDB 1 2 7 buyReq).2 (by decide)⟩

/-- A well-formed SELL request used by concrete evaluations. -/
def sellReq : CreateLedgerEventRequest :=
  { portfolioId := 11, eventType := .SELL, symbol := "2330.TW",
    quantity := 300, price := 600, fee := 256.95, tax := 540,
    occurredAt := 9 }

/-- C4.  The stored `total_amount` of every accepted event is
`quantity * price + fee + tax` for BUY and `quantity * price - fee - tax`
for SELL, in exact arithmetic: the row appended by a successful
`CreateEvent` carries exactly that value. -/
theorem createEvent_total_amount (dbRefreshOk : Bool) (st : DBState)
    (eid now uid : Nat) (req : CreateLedgerEventRequest)
    (hok : rowConstraintsOk (mkEvent eid now uid req) = true) :
    (req.eventType = .BUY →
      ((CreateEvent true dbRefreshOk st eid now uid
            req).1.ledger_events.getLast?).map LedgerEvent.totalAmount =
        some (req.quantity * req.price + req.fee + req.tax)) ∧
    (req.eventType = .SELL →
      ((CreateEvent true dbRefreshOk st eid now uid
            req).1.ledger_events.getLast?).map LedgerEvent.totalAmount =
        some (req.quantity * req.price - req.fee - req.tax)) := by
  have hlast :
      (CreateEvent true dbRefreshOk st eid now uid
          req).1.ledger_events.getLast? = some (mkEvent eid now uid req) := by
    cases dbRefreshOk <;> simp [CreateEvent, hok, List.getLast?_concat]
  constructor <;> intro ht <;> rw [hlast] <;> simp [mkEvent, ht]

/-- C4, witness: a concrete BUY stores `1000·580 + 826.5 + 0` and a
concrete SELL stores `300·600 − 256.95 − 540`. -/
theorem createEvent_total_amount_witness :
    (((CreateEvent true true emptyDB 1 2 7
          buyReq).1.ledger_events.getLast?).map LedgerEvent.totalAmount =
      some (buyReq.quantity * buyReq.price + buyReq.fee + buyReq.tax)) ∧
    (((CreateEvent true true emptyDB 1 2 7
          sellReq).1.ledger_events.getLast?).map LedgerEvent.totalAmount =
      some (sellReq.quantity * sellReq.price - sellReq.fee -
        sellReq.tax)) :=
  ⟨(createEvent_total_amount true emptyDB 1 2 7 buyReq (by decide)).1 rfl,
    (createEvent_total_amount true emptyDB 1 2 7 sellReq (by decide)).2
      rfl⟩

/-- C5.  The position projection: for every (`portfolio_id`, `symbol`)
key, whenever every SPLIT event of the group carries a payload ratio, the
`positions_current` row equals the spec formulas — `total_quantity =
Σ BUY quantity − Σ SELL quantity + Σ SPLIT (quantity·ratio)`,
`total_cost = Σ BUY total_amount − Σ SELL total_amount`,
`avg_cost_per_share = total_cost / total_quantity` — and is present
exactly when that `total_quantity` is positive. -/
theorem positions_current_spec (evs : List LedgerEvent) (pid : Nat)
    (sym : String)
    (hratio : ∀ e ∈ groupEvents evs pid sym,
      e.eventType = .SPLIT → e.payloadRatio.isSome) :
    positionsFor evs pid sym =
      (let g := groupEvents evs pid sym
       let tq := sumBuyQty g - sumSellQty g + sumSplitQty g
       let tc := sumBuyCost g - sumSellCost g
       if 0 < tq then
         some { portfolioId := pid, symbol := sym, totalQuantity := tq,
                totalCost := tc, avgCostPerShare := tc / tq }
       else none) := by
  have hq : ((groupEvents evs pid sym).map qtyCase).sum =
      sumBuyQty (groupEvents evs pid sym) -
        sumSellQty (groupEvents evs pid sym) +
        sumSplitQty (groupEvents evs pid sym) := by
    rw [qtyCase_sum, splitQty_sum _ hratio]
  have hc : ((groupEvents evs pid sym).map costCase).sum =
      sumBuyCost (groupEvents evs pid sym) -
        sumSellCost (groupEvents evs pid sym) := costCase_sum _
  simp only [positionsFor, hq, hc]

/-- Concrete event log for the C5 witness: a BUY of 10, a SELL of 4 and a
2-for-1 SPLIT of the remaining 6, all on one key, plus an event of
another portfolio. -/
def c5Events : List LedgerEvent :=
  [ { eventId := 1, userId := 7, portfolioId := 11, eventType := .BUY,
      symbol := "2330.TW", quantity := 10, price := 100, fee := 1, tax := 0,
      totalAmount := 1001, occurredAt := 1, recordedAt := 1,
      payloadRatio := none },
    { eventId := 2, userId := 7, portfolioId := 11, eventType := .SELL,
      symbol := "2330.TW", quantity := 4, price := 110, fee := 1, tax := 1,
      totalAmount := 438, occurredAt := 2, recordedAt := 2,
      payloadRatio := none },
    { eventId := 3, userId := 7, portfolioId := 11, eventType := .SPLIT,
      symbol := "2330.TW", quantity := 6, price := 0, fee := 0, tax := 0,
      totalAmount := 0, occurredAt := 3, recordedAt := 3,
      payloadRatio := some 2 },
    { eventId := 4, userId := 7, portfolioId := 12, eventType := .BUY,
      symbol := "2317.TW", quantity := 5, price := 50, fee := 0, tax := 0,
      totalAmount := 250, occurredAt := 4, recordedAt := 4,
      payloadRatio := none } ]

/-- C5, witness: the projection evaluated on the concrete log. -/
theorem positions_current_spec_witness :
    positionsFor c5Events 11 "2330.TW" =
      (let g := groupEvents c5Events 11 "2330.TW"
       let tq := sumBuyQty g - sumSellQty g + sumSplitQty g
       let tc := sumBuyCost g - sumSellCost g
       if 0 < tq then
         some { portfolioId := 11, symbol := "2330.TW",
                totalQuantity := tq, totalCost := tc,
                avgCostPerShare := tc / tq }
       else none) :=
  positions_current_spec c5Events 11 "2330.TW" (by decide)

/-!
Realtime quote service: `backend/internal/services/realtime_service.go`
(`GetMarketStatus`, `FetchMultipleQuotes`, `parseOrderBook`) and the batch
handler `backend/internal/handlers/realtime_handler.go` (`GetBatchQuotes`).
-/

/-- Numeric value of a digit list, most significant first. -/
def digitsVal (cs : List Char) : Nat :=
  cs.foldl (fun a c => a * 10 + (c.toNat - '0'.toNat)) 0

/-- Parse an unsigned decimal string `digits[.digits]` to an exact
rational (model of the accepting core of `decimal.NewFromString`). -/
def parseUnsignedDec (cs : List Char) : Option Rat :=
  let intPart := cs.takeWhile Char.isDigit
  let rest := cs.dropWhile Char.isDigit
  match rest with
  | [] => if intPart.isEmpty then none else some (digitsVal intPart)
  | '.' :: frac =>
      if frac.all Char.isDigit ∧ ¬(intPart.isEmpty ∧ frac.isEmpty) then
        some ((digitsVal intPart : Rat) +
          (digitsVal frac : Rat) / ((10 : Rat) ^ frac.length))
      else none
  | _ => none

/-- Model of `decimal.NewFromString`: optional sign then an unsigned
decimal; `none` models the Go error return. -/
def tryParseDec (s : String) : Option Rat :=
  match s.toList with
  | '-' :: cs => (parseUnsignedDec cs).map Neg.neg
  | '+' :: cs => parseUnsignedDec cs
  | cs => parseUnsignedDec cs

/-- Model of `fmt.Sscanf(s, "%d", &v)` on a fresh variable: leading
spaces skipped, optional sign, leading digits; when nothing parses the
variable keeps its zero value. -/
def sscanfInt (s : String) : Int :=
  let cs := s.toList.dropWhile (· = ' ')
  match cs with
  | '-' :: rest =>
      let ds := rest.takeWhile Char.isDigit
      if ds.isEmpty then 0 else -(digitsVal ds : Int)
  | '+' :: rest =>
      let ds := rest.takeWhile Char.isDigit
      if ds.isEmpty then 0 else (digitsVal ds : Int)
  | _ =>
      let ds := cs.takeWhile Char.isDigit
      if ds.isEmpty then 0 else (digitsVal ds : Int)

/-- One price level of the 5-level order book. -/
structure OrderBookLevel where
  price : Rat
  volume : Int
deriving DecidableEq, Repr

/-- The 5-level bid/ask order book. -/
structure OrderBook where
  bids : List OrderBookLevel
  asks : List OrderBookLevel
deriving DecidableEq, Repr

/-- Character-level splitter used to model `strings.Split` (structural
recursion so that concrete inputs evaluate inside proofs). -/
def splitCharAux (sep : Char) : List Char → List Char → List String
  | [], acc => [String.mk acc.reverse]
  | c :: rest, acc =>
      if c = sep then String.mk acc.reverse :: splitCharAux sep rest []
      else splitCharAux sep rest (c :: acc)

/-- Model of `strings.Split(s, "_")`. -/
def splitUnderscore (s : String) : List String :=
  splitCharAux '_' s.toList []

/-- The per-side loop of `parseOrderBook`: walk price and volume strings
in parallel, at most five levels, skipping a level when either string is
empty or the price fails to parse; the volume falls back to 0 when
`Sscanf` matches nothing. -/
def parseSide (prices volumes : List String) : List OrderBookLevel :=
  ((prices.take 5).zip (volumes.take 5)).filterMap fun pv =>
    if pv.1 = "" ∨ pv.2 = "" then none
    else (tryParseDec pv.1).map fun pr =>
      { price := pr, volume := sscanfInt pv.2 }

/-- The Go `parseOrderBook(bidPrices, askPrices, bidVolumes, askVolumes)`:
each side is parsed only when both of its strings are non-empty and not
the sentinel `"-"`; the result is `nil` when both sides come out
empty. -/
def parseOrderBook (bidPrices askPrices bidVolumes askVolumes : String) :
    Option OrderBook :=
  let bids :=
    if bidPrices ≠ "" ∧ bidPrices ≠ "-" ∧ bidVolumes ≠ "" ∧
        bidVolumes ≠ "-" then
      parseSide (splitUnderscore bidPrices) (splitUnderscore bidVolumes)
    else []
  let asks :=
    if askPrices ≠ "" ∧ askPrices ≠ "-" ∧ askVolumes ≠ "" ∧
        askVolumes ≠ "-" then
      parseSide (splitUnderscore askPrices) (splitUnderscore askVolumes)
    else []
  if bids.isEmpty && asks.isEmpty then none
  else some { bids := bids, asks := asks }

/-- The prices that parse successfully among the first five upstream
levels of one side, in upstream order; the reference list the parser's
output is measured against. -/
def sideInputPrices (prices volumes : List String) : List Rat :=
  ((prices.take 5).zip (volumes.take 5)).filterMap fun pv =>
    tryParseDec pv.1

lemma parseSide_prices_sublist (prices volumes : List String) :
    ((parseSide prices volumes).map OrderBookLevel.price).Sublist
      (sideInputPrices prices volumes) := by
  unfold parseSide sideInputPrices
  generalize (prices.take 5).zip (volumes.take 5) = l
  induction l with
  | nil => simp
  | cons pv l ih =>
      simp only [List.filterMap_cons]
      by_cases he : pv.1 = "" ∨ pv.2 = ""
      · simp only [if_pos he]
        cases h : tryParseDec pv.1 with
        | none => simpa using ih
        | some v => exact List.sublist_cons_of_sublist v (by simpa using ih)
      · simp only [if_neg he]
        cases h : tryParseDec pv.1 with
        | none => simpa using ih
        | some v => simpa [h] using ih.cons₂ v

/-- C8, counterexample.  The upstream lists two bid levels in ascending
price order; `parseOrderBook` keeps them exactly as listed, so the
resulting book has bid prices `[584, 585]`, which is not strictly
descending — the parser neither verifies nor sorts. -/
theorem parseOrderBook_keeps_upstream_order_cex :
    (parseOrderBook "584_585" "-" "100_200" "-").map
        (fun ob => ob.bids.map OrderBookLevel.price) = some [584, 585] ∧
    ¬ ((584 : Rat) > 585) := by
  decide

/-- C8, amended.  The parser emits each side's levels in upstream order
without verification or sorting: the output prices form a subsequence of
the prices parsed from the upstream strings, so bid prices are strictly
descending and ask prices strictly ascending only when the upstream
strings already list them that way. -/
lemma pairwise_of_ite_parseSide {c : Prop} [Decidable c]
    (ps vs : List String) (R : Rat → Rat → Prop)
    (h : (sideInputPrices ps vs).Pairwise R) :
    (((if c then parseSide ps vs else []).map
      OrderBookLevel.price).Pairwise R) := by
  split
  · exact List.Pairwise.sublist (parseSide_prices_sublist _ _) h
  · simp

theorem parseOrderBook_order_from_upstream
    (bidPrices askPrices bidVolumes askVolumes : String) (ob : OrderBook)
    (hob : parseOrderBook bidPrices askPrices bidVolumes askVolumes =
      some ob)
    (hbid : (sideInputPrices (splitUnderscore bidPrices)
      (splitUnderscore bidVolumes)).Pairwise (· > ·))
    (hask : (sideInputPrices (splitUnderscore askPrices)
      (splitUnderscore askVolumes)).Pairwise (· < ·)) :
    (ob.bids.map OrderBookLevel.price).Pairwise (· > ·) ∧
    (ob.asks.map OrderBookLevel.price).Pairwise (· < ·) := by
  simp only [parseOrderBook] at hob
  by_cases hc :
      ((if bidPrices ≠ "" ∧ bidPrices ≠ "-" ∧ bidVolumes ≠ "" ∧
            bidVolumes ≠ "-" then
          parseSide (splitUnderscore bidPrices)
            (splitUnderscore bidVolumes)
        else []).isEmpty &&
        (if askPrices ≠ "" ∧ askPrices ≠ "-" ∧ askVolumes ≠ "" ∧
            askVolumes ≠ "-" then
          parseSide (splitUnderscore askPrices)
            (splitUnderscore askVolumes)
        else []).isEmpty) = true
  · rw [if_pos hc] at hob
    exact Option.noConfusion hob
  · rw [if_neg hc] at hob
    injection hob with h
    subst h
    exact ⟨pairwise_of_ite_parseSide _ _ _ hbid,
      pairwise_of_ite_parseSide _ _ _ hask⟩

/-- The concrete book used to witness the amended C8 theorem. -/
def c8Book : OrderBook :=
  { bids := [{ price := 585, volume := 100 },
             { price := 584, volume := 200 }],
    asks := [{ price := 590, volume := 10 },
             { price := 591, volume := 20 }] }

/-- C8, witness for the amended theorem: descending upstream bids and
ascending upstream asks yield a descending/ascending book. -/
theorem parseOrderBook_order_from_upstream_witness :
    (c8Book.bids.map OrderBookLevel.price).Pairwise (· > ·) ∧
    (c8Book.asks.map OrderBookLevel.price).Pairwise (· < ·) :=
  parseOrderBook_order_from_upstream "585_584" "590_591" "100_200"
    "10_20" c8Book (by decide) (by decide) (by decide)

/-- The derived market-status value of `GetMarketStatus`; `nextOpenTime`
is omitted (it is irrelevant to every property proved here). -/
structure MarketStatusM where
  isOpen : Bool
  status : String
  message : String
deriving DecidableEq, Repr

/-- The Go `GetMarketStatus` as a function of the Asia/Taipei wall clock:
`weekday` uses Go's numbering (0 = Sunday … 6 = Saturday) and
`timeOfDay = hour*100 + minute`; the seconds are never consulted.
Branches in source order: weekend, before 08:30, 08:30–08:59 pre-market,
09:00–13:29 open, 13:30–14:29 after-hours, else closed. -/
def getMarketStatus (weekday hour minute second : Nat) : MarketStatusM :=
  let timeOfDay := hour * 100 + minute
  if weekday = 6 ∨ weekday = 0 then
    { isOpen := false, status := "closed", message := "休市 - 週末" }
  else if timeOfDay < 830 then
    { isOpen := false, status := "closed", message := "休市 - 尚未開盤" }
  else if 830 ≤ timeOfDay ∧ timeOfDay < 900 then
    { isOpen := false, status := "pre_market",
      message := "盤前試撮 (08:30-09:00)" }
  else if 900 ≤ timeOfDay ∧ timeOfDay < 1330 then
    { isOpen := true, status := "open", message := "交易時段 (09:00-13:30)" }
  else if 1330 ≤ timeOfDay ∧ timeOfDay < 1430 then
    { isOpen := false, status := "after_hours",
      message := "盤後定價交易 (13:30-14:30)" }
  else
    { isOpen := false, status := "closed", message := "休市 - 今日交易結束" }

/-- C7, counterexample.  At Monday 08:59:59 Taipei time the service
reports state `pre_market`, not the claimed `closed` (`is_open` is
false, as claimed); the 09:00:00 half of the claim does hold. -/
theorem marketStatus_0859_cex :
    (getMarketStatus 1 8 59 59).status = "pre_market" ∧
    (getMarketStatus 1 8 59 59).status ≠ "closed" ∧
    (getMarketStatus 1 8 59 59).isOpen = false := by
  decide

/-- C7, amended.  At Monday 08:59:59 the market clock reports
`pre_market` with `is_open = false`; at Monday 09:00:00 it reports
`open` with `is_open = true`. -/
theorem marketStatus_opening_boundary :
    (getMarketStatus 1 8 59 59).status = "pre_market" ∧
    (getMarketStatus 1 8 59 59).isOpen = false ∧
    (getMarketStatus 1 9 0 0).status = "open" ∧
    (getMarketStatus 1 9 0 0).isOpen = true := by
  decide

/-- One record of the upstream `msgArray` as consumed by
`FetchMultipleQuotes` (all fields are strings on the wire). -/
structure MsgRecord where
  symbol : String
  name : String
  price : String
  openPrice : String
  high : String
  low : String
  prevClose : String
  volume : String
  bidPrice : String
  askPrice : String
  limitUp : String
  limitDown : String
deriving DecidableEq, Repr

/-- Field translation used throughout `FetchMultipleQuotes`: a field is
parsed only when non-empty and not the sentinel `"-"`; the parse error is
discarded (`_ =`), leaving the decimal zero value. -/
def decField (s : String) : Rat :=
  if s = "" ∨ s = "-" then 0 else (tryParseDec s).getD 0

/-- First element of an `_`-separated list, parsed the same way (the best
bid or ask of the quote). -/
def firstSplitField (s : String) : Rat :=
  if s = "" ∨ s = "-" then 0
  else
    match splitUnderscore s with
    | [] => 0
    | p :: _ => if p = "" then 0 else (tryParseDec p).getD 0

/-- Model of `decimal.Round(2)` (round half away from zero to two
decimal places). -/
def round2 (x : Rat) : Rat :=
  ((if x < 0 then -((-x * 100 + 1 / 2).floor) else (x * 100 + 1 / 2).floor
    : Int) : Rat) / 100

/-- The quote assembled per record inside `FetchMultipleQuotes`
(timestamps omitted; `isOpen` comes from one `GetMarketStatus` call per
batch). -/
structure RealtimeQuoteM where
  symbol : String
  name : String
  price : Rat
  prevClose : Rat
  openPrice : Rat
  high : Rat
  low : Rat
  limitUp : Rat
  limitDown : Rat
  volume : Int
  bidPrice : Rat
  askPrice : Rat
  change : Rat
  changePercent : Rat
  isOpen : Bool
deriving DecidableEq, Repr

/-- The per-record body of the `FetchMultipleQuotes` loop. -/
def mkQuote (isOpen : Bool) (d : MsgRecord) : RealtimeQuoteM :=
  let price := decField d.price
  let prevClose := decField d.prevClose
  let change := if price ≠ 0 ∧ prevClose ≠ 0 then price - prevClose else 0
  { symbol := d.symbol
    name := d.name
    price := price
    prevClose := prevClose
    openPrice := decField d.openPrice
    high := decField d.high
    low := decField d.low
    limitUp := decField d.limitUp
    limitDown := decField d.limitDown
    volume := if d.volume = "" ∨ d.volume = "-" then 0
      else sscanfInt d.volume * 1000
    bidPrice := firstSplitField d.bidPrice
    askPrice := firstSplitField d.askPrice
    change := change
    changePercent := if price ≠ 0 ∧ prevClose ≠ 0 then
        round2 (change / prevClose * 100)
      else 0
    isOpen := isOpen }

/-- The Go `FetchMultipleQuotes`: empty input short-circuits; otherwise
one HTTP round-trip queries all requested symbols at once and each
`msgArray` record becomes one quote.  `upstream` models the exchange
endpoint (the `msgArray` it answers for a requested symbol list). -/
def FetchMultipleQuotes (upstream : List String → List MsgRecord)
    (isOpen : Bool) (symbols : List String) : List RealtimeQuoteM :=
  if symbols.isEmpty then []
  else (upstream symbols).map (mkQuote isOpen)

/-- The Go handler `GetBatchQuotes` after query-string splitting: the
symbol list is truncated to its first 20 entries before the single
`FetchMultipleQuotes` call.  The first component is the symbol list
actually sent upstream. -/
def GetBatchQuotes (upstream : List String → List MsgRecord)
    (isOpen : Bool) (symbolsParam : List String) :
    List String × List RealtimeQuoteM :=
  let symbols :=
    if symbolsParam.length > 20 then symbolsParam.take 20 else symbolsParam
  (symbols, FetchMultipleQuotes upstream isOpen symbols)

/-- C6.  When the upstream answers at most one record per requested
symbol, `GetBatchQuotes` sends exactly the first 20 symbols of the
request upstream (in one round-trip) and returns at most 20 quotes; in
particular a 21-symbol request yields at most 20 results. -/
theorem getBatchQuotes_limit (upstream : List String → List MsgRecord)
    (isOpen : Bool) (symbolsParam : List String)
    (hu : ∀ syms, (upstream syms).length ≤ syms.length) :
    (GetBatchQuotes upstream isOpen symbolsParam).1 =
      symbolsParam.take 20 ∧
    (GetBatchQuotes upstream isOpen symbolsParam).1.length ≤ 20 ∧
    (GetBatchQuotes upstream isOpen symbolsParam).2.length ≤ 20 := by
  have hsyms : (if symbolsParam.length > 20 then symbolsParam.take 20
      else symbolsParam) = symbolsParam.take 20 := by
    split
    · rfl
    · exact (List.take_of_length_le (by omega)).symm
  have hlen : (symbolsParam.take 20).length ≤ 20 := by
    simp [List.length_take]
  refine ⟨hsyms, ?_, ?_⟩
  · show (if symbolsParam.length > 20 then symbolsParam.take 20
        else symbolsParam).length ≤ 20
    rw [hsyms]; exact hlen
  show (FetchMultipleQuotes upstream isOpen _).length ≤ 20
  rw [hsyms]
  unfold FetchMultipleQuotes
  split
  · simp
  · calc ((upstream (symbolsParam.take 20)).map (mkQuote isOpen)).length
        = (upstream (symbolsParam.take 20)).length := List.length_map _ _
      _ ≤ (symbolsParam.take 20).length := hu _
      _ ≤ 20 := hlen

/-- A 21-symbol request used to witness C6. -/
def c6Symbols : List String :=
  ["2330", "2317", "2454", "2308", "3034", "2303", "3231", "2379",
   "3711", "2408", "2301", "2881", "2882", "2884", "2886", "2891",
   "2885", "2883", "2892", "5880", "1301"]

/-- A one-record-per-symbol upstream used to witness C6. -/
def c6Upstream (syms : List String) : List MsgRecord :=
  syms.map fun s =>
    { symbol := s, name := "", price := "600", openPrice := "-",
      high := "-", low := "-", prevClose := "590", volume := "5",
      bidPrice := "-", askPrice := "-", limitUp := "-", limitDown := "-" }

/-- C6, witness: the 21-symbol batch is truncated to 20 and returns at
most 20 quotes. -/
theorem getBatchQuotes_limit_witness :
    (GetBatchQuotes c6Upstream true c6Symbols).1 = c6Symbols.take 20 ∧
    (GetBatchQuotes c6Upstream true c6Symbols).1.length ≤ 20 ∧
    (GetBatchQuotes c6Upstream true c6Symbols).2.length ≤ 20 :=
  getBatchQuotes_limit c6Upstream true c6Symbols
    (fun syms => by simp [c6Upstream])

/-!
Indicator engine: `CalculateMA` and `CalculateMACD` of the technical
analysis service.  `go-talib` computes over `float64`; here the same
recurrences run over `Rat` (`NaN` cannot arise, matching the fact that
the Go NaN guards never fire on finite inputs), with the library's
convention that the first `lookback` output entries are zero.  The
library has no short-input guards: `ema` seeds its average by reading
`inReal[0..period-1]` (and `sma` does the like) without a length check,
so a series shorter than the period — or a zero period, which writes
`outReal[-1]` — panics with an index-out-of-range runtime error.  A
panic is modelled as `none`: the function never returns. -/

/-- One OHLCV bar as read by `getOHLCVData`, already reversed into
chronological order. -/
structure Bar where
  timestamp : Nat
  openPrice : Rat
  high : Rat
  low : Rat
  close : Rat
deriving DecidableEq, Repr

/-- Model of `talib.Sma`: entry `i` is the mean of the trailing `period`
window, zero during the warm-up.  The unguarded seed and sliding loops
read up to `inReal[period-1]`, so a series shorter than the period (or a
zero period, which writes `outReal[-1]`) panics — `none`. -/
def taSma (period : Nat) (xs : List Rat) : Option (List Rat) :=
  if xs.length < period ∨ period = 0 then none
  else
    some ((List.range xs.length).map fun i =>
      if i + 1 < period then 0
      else ((xs.drop (i + 1 - period)).take period).sum / (period : Rat))

/-- Recurrence tail of the exponential moving average. -/
def taEmaAux (k : Rat) (prev : Rat) : List Rat → List Rat
  | [] => []
  | x :: rest =>
      let e := (x - prev) * k + prev
      e :: taEmaAux k e rest

/-- Model of `talib.Ema`: the unguarded seed loop reads
`inReal[0..period-1]`, so a series shorter than the period (or a zero
period, which writes `outReal[-1]`) panics with an index-out-of-range
error — `none`.  Otherwise the output carries the SMA of the first
`period` values at index `period - 1`, continues with smoothing factor
`2 / (period + 1)` and is zero during the warm-up. -/
def taEma (period : Nat) (xs : List Rat) : Option (List Rat) :=
  if xs.length < period ∨ period = 0 then none
  else
    let seed := (xs.take period).sum / (period : Rat)
    some (List.replicate (period - 1) 0 ++
      seed :: taEmaAux (2 / ((period : Rat) + 1)) seed (xs.drop period))

/-- Model of `talib.Macd`: the two periods are swapped so the slow one
is the larger; the fast and slow EMAs of the series are taken
(panicking on a series shorter than either period), the MACD line is
their difference kept from the total lookback `slow + signal - 2` less
one on, the signal line is an EMA of the full-length MACD buffer
(panicking when the series is shorter than the signal period) and the
histogram their difference from the total lookback on.  `none`
propagates any panic: the caller never regains control. -/
def taMacd (fast slow signal : Nat) (xs : List Rat) :
    Option (List Rat × List Rat × List Rat) :=
  let f := if slow < fast then slow else fast
  let s := if slow < fast then fast else slow
  match taEma f xs, taEma s xs with
  | some eFast, some eSlow =>
      let diff := List.zipWith (fun a b => a - b) eFast eSlow
      let lookbackTotal := (signal - 1) + (s - 1)
      let macdLine := (List.range xs.length).map fun i =>
        if i + 1 < lookbackTotal then 0 else diff.getD i 0
      match taEma signal macdLine with
      | some sigLine =>
          some (macdLine, sigLine,
            (List.range xs.length).map fun i =>
              if i < lookbackTotal then 0
              else macdLine.getD i 0 - sigLine.getD i 0)
      | none => none
  | _, _ => none

/-- One row of a moving-average result. -/
structure MAResult where
  timestamp : Nat
  value : Rat
deriving DecidableEq, Repr

/-- One row of a MACD result. -/
structure MACDResult where
  timestamp : Nat
  macd : Rat
  signal : Rat
  histogram : Rat
deriving DecidableEq, Repr

/-- The tail slice `results[len-limit:]` the service returns when the
computed series is longer than `limit`. -/
def lastN {α : Type} (limit : Nat) (l : List α) : List α :=
  if l.length > limit then l.drop (l.length - limit) else l

/-- Whether an indicator call returned an error value (as opposed to a
success or to a panic, which returns nothing at all). -/
def returnsErrorValue {α : Type} : Option (Except String α) → Bool
  | some (Except.error _) => true
  | _ => false

/-- The Go `CalculateMA` on a cache hit or miss: a hit serves the tail
slice of the cached series; a miss rejects a series shorter than the
period with an insufficient-data error *before* calling into talib,
otherwise computes the SMA or EMA over close prices, keeps the non-zero
entries (the Go `val != 0 && !isNaN(val)` filter; NaN cannot arise
here) and returns the tail slice.  The outer `none` is a talib panic,
reachable only with a zero period (the length guard already ensures the
series is long enough). -/
def CalculateMA (cached : Option (List MAResult)) (ohlcv : List Bar)
    (period : Nat) (maType : String) (limit : Nat) :
    Option (Except String (List MAResult)) :=
  match cached with
  | some results => some (.ok (lastN limit results))
  | none =>
      if ohlcv.length < period then
        some (.error ("insufficient data: need " ++ toString period ++
          ", got " ++ toString ohlcv.length))
      else
        let closePrices := ohlcv.map Bar.close
        match (if maType = "EMA" then taEma period closePrices
            else taSma period closePrices) with
        | none => none
        | some maValues =>
            let results := (ohlcv.zip maValues).filterMap fun bv =>
              if bv.2 ≠ 0 then
                some { timestamp := bv.1.timestamp, value := bv.2 }
              else none
            some (.ok (lastN limit results))

/-- The Go `CalculateMACD`: unlike `CalculateMA` there is no
insufficient-data check before `talib.Macd`, so a series shorter than
the needed periods panics inside the library (`none`: the function
never returns); otherwise the three outputs are assembled row by row
(the Go `!isNaN` guards never fire on finite inputs) and the tail slice
is returned. -/
def CalculateMACD (cached : Option (List MACDResult)) (ohlcv : List Bar)
    (fast slow signal limit : Nat) :
    Option (Except String (List MACDResult)) :=
  match cached with
  | some results => some (.ok (lastN limit results))
  | none =>
      let closePrices := ohlcv.map Bar.close
      match taMacd fast slow signal closePrices with
      | none => none
      | some lines =>
          let results := (ohlcv.zip ((lines.1.zip lines.2.1).zip
              lines.2.2)).map fun x =>
            { timestamp := x.1.timestamp, macd := x.2.1.1,
              signal := x.2.1.2, histogram := x.2.2 }
          some (.ok (lastN limit results))

/-- A one-bar series, far shorter than the default slow period 26. -/
def c9Bars : List Bar :=
  [{ timestamp := 1, openPrice := 5, high := 6, low := 4, close := 5 }]

lemma taMacd_short_none (fast slow signal : Nat) (xs : List Rat)
    (hfs : fast ≤ slow) (hshort : xs.length < slow) :
    taMacd fast slow signal xs = none := by
  unfold taMacd
  have hswap : ¬ slow < fast := not_lt.mpr hfs
  have h2 : taEma slow xs = none := by
    unfold taEma
    exact if_pos (Or.inl hshort)
  simp only [if_neg hswap]
  rw [h2]
  cases taEma fast xs <;> rfl

/-- C9, counterexample.  `CalculateMACD` on a cache miss over a
single-bar series with the default periods (12, 26, 9) does not return
the insufficient-data error the claim requires: `talib.Macd` is entered
unguarded and panics on the short series (modelled `none`), so the
function never returns at all. -/
theorem calculateMACD_short_series_panic_cex :
    (CalculateMACD none c9Bars 12 26 9 100).isNone = true ∧
    c9Bars.length < 26 := by
  decide

/-- C9, amended.  On a cache miss `CalculateMA` returns the
insufficient-data error exactly when the series is shorter than the
period, and for a positive period it never panics; `CalculateMACD` has
no such guard: with `fast ≤ slow`, on a series shorter than the slow
period it panics inside `talib.Macd` and returns neither an error nor a
result. -/
theorem indicator_insufficient_data (ohlcv : List Bar)
    (period limit : Nat) (maType : String) (fast slow signal : Nat) :
    (0 < period →
      (returnsErrorValue (CalculateMA none ohlcv period maType limit) =
          true ↔ ohlcv.length < period) ∧
        CalculateMA none ohlcv period maType limit ≠ none) ∧
    (fast ≤ slow → ohlcv.length < slow →
      CalculateMACD none ohlcv fast slow signal limit = none) := by
  constructor
  · intro hp
    by_cases h : ohlcv.length < period
    · simp [CalculateMA, h, returnsErrorValue]
    · have hcond : ¬ ((ohlcv.map Bar.close).length < period ∨
          period = 0) := by
        simp only [List.length_map]
        omega
      have hma : (if maType = "EMA" then
          taEma period (ohlcv.map Bar.close)
          else taSma period (ohlcv.map Bar.close)).isSome = true := by
        split
        · unfold taEma
          rw [if_neg hcond]
          rfl
        · unfold taSma
          rw [if_neg hcond]
          rfl
      obtain ⟨vals, hvals⟩ := Option.isSome_iff_exists.mp hma
      simp [CalculateMA, h, hvals, returnsErrorValue]
  · intro hfs hshort
    have : taMacd fast slow signal (ohlcv.map Bar.close) = none :=
      taMacd_short_none fast slow signal _ hfs (by simpa using hshort)
    simp [CalculateMACD, this]

/-- C9, witness for the amended theorem: a 1-bar series against SMA
period 20 (insufficient-data error, no panic) and against MACD
(12, 26, 9) (panic, nothing returned). -/
theorem indicator_insufficient_data_witness :
    ((returnsErrorValue (CalculateMA none c9Bars 20 "SMA" 100) = true ↔
        c9Bars.length < 20) ∧
      CalculateMA none c9Bars 20 "SMA" 100 ≠ none) ∧
    CalculateMACD none c9Bars 12 26 9 100 = none :=
  ⟨(indicator_insufficient_data c9Bars 20 100 "SMA" 12 26 9).1
      (by decide),
    (indicator_insufficient_data c9Bars 20 100 "SMA" 12 26 9).2
      (by decide) (by decide)⟩

/-!
Bulk ingestion: `FetchAllStocksForDate` / `SaveBulkOHLCV` of
`bulk_sync_service.go` and the day loop of `runDateBasedBulkSync` in
`bulk_sync_handler.go`.  The upstream HTTP exchange and the database
write are modelled by explicit per-day outcomes.
-/

/-- Model of `strings.TrimSpace`. -/
def trimSpace (s : String) : String :=
  String.mk
    (((s.toList.dropWhile Char.isWhitespace).reverse.dropWhile
      Char.isWhitespace).reverse)

/-- Model of `strings.ReplaceAll(s, ",", "")`. -/
def removeCommas (s : String) : String :=
  String.mk (s.toList.filter (· ≠ ','))

/-- The Go `parseDecimalFromTWSE`: strip commas and spaces; empty and the
sentinels `"--"` / `"---"` are "no value" (an error in Go, `none`
here); otherwise `decimal.NewFromString`. -/
def parseDecimalFromTWSE (s : String) : Option Rat :=
  let cleaned := removeCommas (trimSpace s)
  if cleaned = "" ∨ cleaned = "--" ∨ cleaned = "---" then none
  else tryParseDec cleaned

/-- The Go `parseVolumeFromTWSE`: strip commas and spaces; empty yields
0, otherwise `Sscanf "%d"` (which also leaves 0 when nothing
matches). -/
def parseVolumeFromTWSE (s : String) : Int :=
  let cleaned := removeCommas (trimSpace s)
  if cleaned = "" then 0 else sscanfInt cleaned

/-- One parsed row of the daily exchange-wide snapshot. -/
structure DailyStockData where
  symbol : String
  date : Nat
  openPrice : Rat
  high : Rat
  low : Rat
  close : Rat
  volume : Int
  turnover : Rat
deriving DecidableEq, Repr

/-- One table of the MI_INDEX response. -/
structure MIIndexTable where
  title : String
  fields : List String
  data : List (List String)
deriving DecidableEq, Repr

/-- The MI_INDEX response body. -/
structure MIIndexResponse where
  stat : String
  date : Nat
  tables : List MIIndexTable
deriving DecidableEq, Repr

/-- The upstream exchange of one day's fetch: a transport error, or an
HTTP status with an optionally JSON-parseable body. -/
inductive HttpResult
  | httpErr
  | status (code : Nat) (body : Option MIIndexResponse)
deriving DecidableEq, Repr

/-- The per-row branch of the `FetchAllStocksForDate` parsing loop:
skip short rows, blank symbols, rows whose open/high/low/close fail to
parse and rows where open and close are both zero; volume falls back to
0 and turnover ignores its parse error. -/
def parseRow (date : Nat) (row : List String) : Option DailyStockData :=
  if row.length < 9 then none
  else
    let symbol := trimSpace (row.getD 0 "")
    if symbol = "" then none
    else
      match parseDecimalFromTWSE (row.getD 5 ""),
          parseDecimalFromTWSE (row.getD 6 ""),
          parseDecimalFromTWSE (row.getD 7 ""),
          parseDecimalFromTWSE (row.getD 8 "") with
      | some o, some h, some l, some c =>
          if o = 0 ∧ c = 0 then none
          else some
            { symbol := symbol
              date := date
              openPrice := o
              high := h
              low := l
              close := c
              volume := parseVolumeFromTWSE (row.getD 2 "")
              turnover := (parseDecimalFromTWSE (row.getD 4 "")).getD 0 }
      | _, _, _, _ => none

/-- The Go `FetchAllStocksForDate` as a function of the upstream
exchange: transport errors, non-200 statuses and JSON failures are
errors; `Stat != "OK"` is a non-trading day and yields an empty success;
otherwise the first table with more than 1000 rows is parsed (error when
none exists). -/
def FetchAllStocksForDate (resp : HttpResult) :
    Except String (List DailyStockData) :=
  match resp with
  | .httpErr => .error "failed to fetch data"
  | .status code body =>
      if code ≠ 200 then .error "API returned non-OK status"
      else
        match body with
        | none => .error "failed to parse JSON"
        | some r =>
            if r.stat ≠ "OK" then .ok []
            else
              match r.tables.find? (fun t => t.data.length > 1000) with
              | none => .error "stock data table not found in response"
              | some tbl => .ok (tbl.data.filterMap (parseRow r.date))

/-- The database outcome of one day's `SaveBulkOHLCV`: a failed
transaction, or success with the number of rows saved. -/
inductive SaveOutcome
  | saveErr
  | saved (count : Nat)
deriving DecidableEq, Repr

/-- The sync-status counters mutated by the day loop (progress strings
and timestamps omitted). -/
structure SyncStatusM where
  totalDays : Nat
  processedDays : Nat
  successCount : Nat
  failedCount : Nat
  skippedCount : Nat
  totalSymbols : Nat
  processedCount : Nat
  failedDates : List String
  currentDate : String
deriving DecidableEq, Repr

/-- One day's environment: its date key, the upstream exchange and the
database outcome of the save (consulted only when there is data to
save). -/
structure DayInput where
  dateStr : String
  resp : HttpResult
  save : SaveOutcome
deriving DecidableEq, Repr

/-- One iteration of the `runDateBasedBulkSync` day loop (handler lines
269-312): record the current date, classify the day — fetch error ⇒
`failed_count` and `failed_dates`; empty data ⇒ `skipped_count`;
otherwise save, a failed save counting as failed and a successful one as
success — then advance `processed_days`.  The loop never aborts on a
day-level failure. -/
def processDay (st : SyncStatusM) (idx : Nat) (day : DayInput) :
    SyncStatusM :=
  let st0 := { st with currentDate := day.dateStr, processedDays := idx }
  let st1 :=
    match FetchAllStocksForDate day.resp with
    | .error _ =>
        { st0 with
          failedCount := st0.failedCount + 1
          failedDates := st0.failedDates ++ [day.dateStr] }
    | .ok data =>
        if data.length = 0 then
          { st0 with skippedCount := st0.skippedCount + 1 }
        else
          match day.save with
          | .saveErr =>
              { st0 with
                failedCount := st0.failedCount + 1
                failedDates := st0.failedDates ++ [day.dateStr] }
          | .saved n =>
              { st0 with
                successCount := st0.successCount + 1
                totalSymbols := st0.totalSymbols + data.length
                processedCount := st0.processedCount + n }
  { st1 with processedDays := idx + 1 }

/-- The day loop itself, carrying the running index. -/
def runSyncAux (st : SyncStatusM) (i : Nat) :
    List DayInput → SyncStatusM
  | [] => st
  | d :: rest => runSyncAux (processDay st i d) (i + 1) rest

/-- The day loop of `runDateBasedBulkSync` over the filtered
`daysToSync` list (stop-signal handling omitted: no stop is issued). -/
def runDateBasedBulkSync (st : SyncStatusM) (days : List DayInput) :
    SyncStatusM :=
  runSyncAux st 0 days

/-- Day classifier: the day increments `failed_count` — its fetch
errored, or it had data and the save failed. -/
def dayFails (d : DayInput) : Bool :=
  match FetchAllStocksForDate d.resp with
  | .error _ => true
  | .ok data => !data.isEmpty && d.save = SaveOutcome.saveErr

/-- Day classifier: the day increments `skipped_count` — a non-error
fetch with zero parseable rows. -/
def daySkips (d : DayInput) : Bool :=
  match FetchAllStocksForDate d.resp with
  | .error _ => false
  | .ok data => data.isEmpty

/-- Day classifier: the day increments `success_count`. -/
def daySucceeds (d : DayInput) : Bool :=
  match FetchAllStocksForDate d.resp with
  | .error _ => false
  | .ok data => !data.isEmpty && d.save ≠ SaveOutcome.saveErr

lemma processDay_counters (st : SyncStatusM) (i : Nat) (d : DayInput) :
    (processDay st i d).failedCount =
      st.failedCount + (if dayFails d then 1 else 0) ∧
    (processDay st i d).skippedCount =
      st.skippedCount + (if daySkips d then 1 else 0) ∧
    (processDay st i d).successCount =
      st.successCount + (if daySucceeds d then 1 else 0) ∧
    (processDay st i d).failedDates =
      st.failedDates ++ (if dayFails d then [d.dateStr] else []) := by
  unfold processDay dayFails daySkips daySucceeds
  cases hf : FetchAllStocksForDate d.resp with
  | error e => simp
  | ok data =>
      by_cases hd : data.length = 0
      · simp [hd, List.isEmpty_iff_length_eq_zero.mpr hd]
      · have hne : data.isEmpty = false := by
          cases data with
          | nil => simp at hd
          | cons a l => simp
        cases hs : d.save with
        | saveErr => simp [hd, hne, hs]
        | saved n => simp [hd, hne, hs]

/-- C10.  Over any starting state and any day list: every day whose
fetch errors or whose save fails adds one to `failed_count` and appends
its date key to `failed_dates` (in order); every non-error fetch with
zero parseable rows adds one to `skipped_count`, not `failed_count`;
every remaining day adds one to `success_count`; and the worker
processes the entire list — the three counters absorb every day and
`processed_days` reaches the list length. -/
theorem bulkSync_day_accounting (st : SyncStatusM)
    (days : List DayInput) :
    (runDateBasedBulkSync st days).failedCount =
      st.failedCount + (days.filter dayFails).length ∧
    (runDateBasedBulkSync st days).skippedCount =
      st.skippedCount + (days.filter daySkips).length ∧
    (runDateBasedBulkSync st days).successCount =
      st.successCount + (days.filter daySucceeds).length ∧
    (runDateBasedBulkSync st days).failedDates =
      st.failedDates ++ (days.filter dayFails).map DayInput.dateStr ∧
    (runDateBasedBulkSync st days).processedDays =
      (if days.isEmpty then st.processedDays else days.length) := by
  suffices h : ∀ (l : List DayInput) (s : SyncStatusM) (i : Nat),
      (runSyncAux s i l).failedCount =
        s.failedCount + (l.filter dayFails).length ∧
      (runSyncAux s i l).skippedCount =
        s.skippedCount + (l.filter daySkips).length ∧
      (runSyncAux s i l).successCount =
        s.successCount + (l.filter daySucceeds).length ∧
      (runSyncAux s i l).failedDates =
        s.failedDates ++ (l.filter dayFails).map DayInput.dateStr ∧
      (runSyncAux s i l).processedDays =
        (if l.isEmpty then s.processedDays else i + l.length) by
    have := h days st 0
    simpa [runDateBasedBulkSync] using this
  intro l
  induction l with
  | nil => intro s i; simp [runSyncAux]
  | cons d rest ih =>
      intro s i
      obtain ⟨hf, hk, hs, hd, hp⟩ := ih (processDay s i d) (i + 1)
      obtain ⟨cf, ck, cs, cd⟩ := processDay_counters s i d
      have hpd : (processDay s i d).processedDays = i + 1 := by
        unfold processDay
        cases FetchAllStocksForDate d.resp <;> simp
      refine ⟨?_, ?_, ?_, ?_, ?_⟩
      · rw [runSyncAux, hf, cf]
        by_cases h : dayFails d <;> simp [h, List.filter_cons] <;> omega
      · rw [runSyncAux, hk, ck]
        by_cases h : daySkips d <;> simp [h, List.filter_cons] <;> omega
      · rw [runSyncAux, hs, cs]
        by_cases h : daySucceeds d <;> simp [h, List.filter_cons] <;>
          omega
      · rw [runSyncAux, hd, cd]
        by_cases h : dayFails d <;> simp [h, List.filter_cons]
      · rw [runSyncAux, hp]
        by_cases h : rest.isEmpty = true
        · have h0 : rest.length = 0 := List.isEmpty_iff_length_eq_zero.mp h
          simp [h, hpd, h0]
        · simp [h]
          omega

end PMS
